import Mathlib

/-!
Shallow embedding of factgen (src/factgen/src/parse.rs): the Debian package
ingestion core.  Strings handled by the dependency parser are modelled as
ASCII character lists; the Rust string primitives used by the source
(rfind, split, split_at, trim, trim_start_matches, trim_end_matches) are
embedded below with their Rust semantics on such strings.

Rust panics (panic!, unreachable!, and .unwrap() on an Err/None) abort the
process: they return no value to the caller.  They are modelled by the
error channel of an Except whose error type is Panic; an Except.error in
this development therefore means the run dies, not that a recoverable
error value is handed to a caller.
-/

namespace Factgen

/-- Model of str::rfind with a single-character pattern: the index of the last
occurrence of the character, as used on ASCII control-field text in parse.rs
(byte index and character index coincide there). -/
def rfind (t : Char) : List Char → Option Nat
  | [] => none
  | c :: rest =>
    match rfind t rest with
    | some i => some (i + 1)
    | none => if c = t then some 0 else none

/-- Model of str::split with a single-character pattern: the pieces between the
separator occurrences.  As in Rust, the empty string yields one empty piece
and a trailing separator yields a trailing empty piece. -/
def splitChar (sep : Char) : List Char → List (List Char)
  | [] => [[]]
  | c :: rest =>
    if c = sep then [] :: splitChar sep rest
    else
      match splitChar sep rest with
      | p :: ps => (c :: p) :: ps
      | [] => [[c]]

/-- Whitespace test used by str::trim (ASCII cases). -/
def isWs (c : Char) : Bool := c.isWhitespace

/-- Model of str::trim_start. -/
def trimStart (s : List Char) : List Char := s.dropWhile isWs

/-- Model of str::trim_end. -/
def trimEnd (s : List Char) : List Char := (s.reverse.dropWhile isWs).reverse

/-- Model of str::trim. -/
def trim (s : List Char) : List Char := trimEnd (trimStart s)

/-- Model of str::trim_start_matches with a character pattern. -/
def trimStartMatches (t : Char) (s : List Char) : List Char :=
  s.dropWhile (fun c => c = t)

/-- Model of str::trim_end_matches with a character pattern. -/
def trimEndMatches (t : Char) (s : List Char) : List Char :=
  (s.reverse.dropWhile (fun c => c = t)).reverse

/-- The closed comparator vocabulary of scfs_ddlog::typedefs::Comparator as
used by deb_str_to_comparator. -/
inductive Comparator
  | StrictlyEarlier
  | EarlierOrEqual
  | ExactlyEqual
  | LaterOrEqual
  | StrictlyLater
deriving DecidableEq, Repr

/-- The panic sites of parse.rs.  A value of this type models a Rust process
abort (panic! / unreachable! / .unwrap() on a failed Result), never a
recoverable error value returned to a caller. -/
inductive Panic
  | unknownComparator (tok : List Char)
  | noVersionSeparator (line : List Char)
  | unwrapFailure (stage msg : String)
  | walkdirError (msg : String)
deriving DecidableEq, Repr

/-- True when the modelled computation died with a panic. -/
def panics {α : Type} : Except Panic α → Bool
  | .error _ => true
  | .ok _ => false

/-- One comma-separated relationship group (scfs_ddlog::typedefs::Dependency):
two parallel vectors, package names and optional version constraints. -/
structure Dependency where
  package : List (List Char)
  version : List (Option (Comparator × List Char))
deriving DecidableEq, Repr

/-- Embedding of deb_str_to_comparator (parse.rs lines 13-25): the five
comparator literals map to Comparator; anything else hits the panic! arm. -/
def deb_str_to_comparator (s : List Char) : Except Panic Comparator :=
  if s = "<<".toList then .ok .StrictlyEarlier
  else if s = "<=".toList then .ok .EarlierOrEqual
  else if s = "=".toList then .ok .ExactlyEqual
  else if s = ">=".toList then .ok .LaterOrEqual
  else if s = ">>".toList then .ok .StrictlyLater
  else .error (.unknownComparator s)

/-- Embedding of the per-alternative body of the Depends loop in parse_package
(parse.rs lines 273-312): split at the last opening parenthesis, strip the
parentheses and whitespace, split the constraint at its last space, convert
the comparator, and append name and constraint to the two vectors.  The
None arm of the inner rfind is the unreachable! panic of line 299. -/
def parseAlt (d : Dependency) (dependency : List Char) : Except Panic Dependency :=
  match rfind '(' dependency with
  | some mid =>
    let name := trim (dependency.take mid)
    let version_line :=
      trim (trimEndMatches ')' (trimStartMatches '(' (dependency.drop mid)))
    match rfind ' ' version_line with
    | some mid2 =>
      match deb_str_to_comparator (trim (version_line.take mid2)) with
      | .ok c =>
        .ok ⟨d.package ++ [name], d.version ++ [some (c, trim (version_line.drop mid2))]⟩
      | .error e => .error e
    | none => .error (.noVersionSeparator version_line)
  | none => .ok ⟨d.package ++ [trim dependency], d.version ++ [none]⟩

/-- The inner for-loop over the OR-alternatives of one group. -/
def parseGroupLoop (d : Dependency) : List (List Char) → Except Panic Dependency
  | [] => .ok d
  | a :: rest =>
    match parseAlt d a with
    | .error e => .error e
    | .ok d1 => parseGroupLoop d1 rest

/-- One comma-separated group: split on the pipe character and fold the
alternatives into an initially empty Dependency (parse.rs lines 271-312). -/
def parseGroup (g : List Char) : Except Panic Dependency :=
  parseGroupLoop ⟨[], []⟩ (splitChar '|' g)

/-- Sequence a fallible map over a list: Except.ok of the image when every
element succeeds, the error of a failing element otherwise.  Models running
the per-item computation over every item where an item panic kills the run. -/
def mapExcept {α β : Type} (f : α → Except Panic β) : List α → Except Panic (List β)
  | [] => .ok []
  | x :: xs =>
    match f x with
    | .error e => .error e
    | .ok y =>
      match mapExcept f xs with
      | .error e => .error e
      | .ok ys => .ok (y :: ys)

/-- Embedding of the Depends-field parse of parse_package (parse.rs lines
267-315): split the field text on commas, one Dependency per group. -/
def parseDepends (line : List Char) : Except Panic (List Dependency) :=
  mapExcept parseGroup (splitChar ',' line)

/-- The Tags enum of parse.rs (lines 28-87): the closed control-field
vocabulary with a catch-all Unknown variant. -/
inductive Tags
  | Package
  | Version
  | Source
  | Architecture
  | Maintainer
  | OriginalMaintainer
  | InstalledSize
  | Replaces
  | Section
  | MultiArch
  | Homepage
  | Description
  | Breaks
  | Depends
  | Suggests
  | Priority
  | BuiltUsing
  | Recommends
  | Conflicts
  | Provides
  | Enhances
  | BuildIds
  | PreDepends
  | Tag
  | Essential
  | Bugs
  | Task
  | Important
  | Modaliases
  | CnfVisiblePkgname
  | CnfExtraCommands
  | CnfIgnoreCommands
  | UbuntuOemKernelFlavour
  | RubyVersions
  | LuaVersions
  | PythonVersion
  | Python3Version
  | PythonEggName
  | XCargoBuiltUsing
  | GhcPackage
  | GoImportPath
  | GstreamerElements
  | GstreamerEncoders
  | GstreamerDecoders
  | GstreamerVersion
  | GstreamerUriSources
  | GstreamerUriSinks
  | OriginalVcsGit
  | EfiVendor
  | OriginalVcsBrowser
  | PostgresqlCatversion
  | XulAppid
  | NppApplications
  | NppDescription
  | NppFile
  | NppMimetype
  | Unknown (s : String)

/-- Embedding of Tags::field_name (parse.rs lines 89-151). -/
def Tags.fieldName : Tags → String
  | .Package => "Package"
  | .Version => "Version"
  | .Source => "Source"
  | .Architecture => "Architecture"
  | .Maintainer => "Maintainer"
  | .OriginalMaintainer => "Original-Maintainer"
  | .InstalledSize => "Installed-Size"
  | .Replaces => "Replaces"
  | .Section => "Section"
  | .MultiArch => "Multi-Arch"
  | .Homepage => "Homepage"
  | .Description => "Description"
  | .Breaks => "Breaks"
  | .Depends => "Depends"
  | .Suggests => "Suggests"
  | .Priority => "Priority"
  | .BuiltUsing => "Built-Using"
  | .Recommends => "Recommends"
  | .Conflicts => "Conflicts"
  | .Provides => "Provides"
  | .Enhances => "Enhances"
  | .BuildIds => "Build-Ids"
  | .PreDepends => "Pre-Depends"
  | .Essential => "Essential"
  | .Bugs => "Bugs"
  | .Tag => "Tag"
  | .UbuntuOemKernelFlavour => "Ubuntu-Oem-Kernel-Flavour"
  | .OriginalVcsGit => "Original-Vcs-Git"
  | .RubyVersions => "Ruby-Versions"
  | .LuaVersions => "Lua-Versions"
  | .PythonVersion => "Python-Version"
  | .PythonEggName => "Python-Egg-Name"
  | .GhcPackage => "Ghc-Package"
  | .XCargoBuiltUsing => "X-Cargo-Built-Using"
  | .CnfVisiblePkgname => "Cnf-Visible-Pkgname"
  | .CnfIgnoreCommands => "Cnf-Ignore-Commands"
  | .CnfExtraCommands => "Cnf-Extra-Commands"
  | .GoImportPath => "Go-Import-Path"
  | .GstreamerElements => "Gstreamer-Elements"
  | .GstreamerDecoders => "Gstreamer-Decoders"
  | .GstreamerEncoders => "Gstreamer-Encoders"
  | .GstreamerVersion => "Gstreamer-Version"
  | .GstreamerUriSources => "Gstreamer-Uri-Sources"
  | .GstreamerUriSinks => "Gstreamer-Uri-Sinks"
  | .Python3Version => "Python3-Version"
  | .EfiVendor => "Efi-Vendor"
  | .OriginalVcsBrowser => "Original-Vcs-Browser"
  | .Modaliases => "Modaliases"
  | .PostgresqlCatversion => "Postgresql-Catversion"
  | .XulAppid => "Xul-Appid"
  | .Task => "Task"
  | .Important => "Important"
  | .NppApplications => "Npp-Applications"
  | .NppDescription => "Npp-Description"
  | .NppFile => "Npp-File"
  | .NppMimetype => "Npp-Mimetype"
  | .Unknown x => x

/-- Embedding of the From impl for Tags (parse.rs lines 153-221): a total
conversion from a field-name string, falling back to Unknown. -/
def Tags.fromName (tag : String) : Tags :=
  if tag = "Package" then .Package
  else if tag = "Version" then .Version
  else if tag = "Source" then .Source
  else if tag = "Architecture" then .Architecture
  else if tag = "Maintainer" then .Maintainer
  else if tag = "Original-Maintainer" then .OriginalMaintainer
  else if tag = "Installed-Size" then .InstalledSize
  else if tag = "Replaces" then .Replaces
  else if tag = "Section" then .Section
  else if tag = "Multi-Arch" then .MultiArch
  else if tag = "Homepage" then .Homepage
  else if tag = "Description" then .Description
  else if tag = "Breaks" then .Breaks
  else if tag = "Depends" then .Depends
  else if tag = "Suggests" then .Suggests
  else if tag = "Priority" then .Priority
  else if tag = "Built-Using" then .BuiltUsing
  else if tag = "Recommends" then .Recommends
  else if tag = "Conflicts" then .Conflicts
  else if tag = "Provides" then .Provides
  else if tag = "Enhances" then .Enhances
  else if tag = "Build-Ids" then .BuildIds
  else if tag = "Pre-Depends" then .PreDepends
  else if tag = "Essential" then .Essential
  else if tag = "Bugs" then .Bugs
  else if tag = "Tag" then .Tag
  else if tag = "Ubuntu-Oem-Kernel-Flavour" then .UbuntuOemKernelFlavour
  else if tag = "Original-Vcs-Git" then .OriginalVcsGit
  else if tag = "Ruby-Versions" then .RubyVersions
  else if tag = "Lua-Versions" then .LuaVersions
  else if tag = "Python-Version" then .PythonVersion
  else if tag = "Python-Egg-Name" then .PythonEggName
  else if tag = "Ghc-Package" then .GhcPackage
  else if tag = "X-Cargo-Built-Using" then .XCargoBuiltUsing
  else if tag = "Cnf-Visible-Pkgname" then .CnfVisiblePkgname
  else if tag = "Cnf-Ignore-Commands" then .CnfIgnoreCommands
  else if tag = "Cnf-Extra-Commands" then .CnfExtraCommands
  else if tag = "Go-Import-Path" then .GoImportPath
  else if tag = "Gstreamer-Elements" then .GstreamerElements
  else if tag = "Gstreamer-Decoders" then .GstreamerDecoders
  else if tag = "Gstreamer-Encoders" then .GstreamerEncoders
  else if tag = "Gstreamer-Version" then .GstreamerVersion
  else if tag = "Gstreamer-Uri-Sources" then .GstreamerUriSources
  else if tag = "Gstreamer-Uri-Sinks" then .GstreamerUriSinks
  else if tag = "Python3-Version" then .Python3Version
  else if tag = "Efi-Vendor" then .EfiVendor
  else if tag = "Original-Vcs-Browser" then .OriginalVcsBrowser
  else if tag = "Modaliases" then .Modaliases
  else if tag = "Postgresql-Catversion" then .PostgresqlCatversion
  else if tag = "Xul-Appid" then .XulAppid
  else if tag = "Task" then .Task
  else if tag = "Important" then .Important
  else if tag = "Npp-Applications" then .NppApplications
  else if tag = "Npp-Description" then .NppDescription
  else if tag = "Npp-File" then .NppFile
  else if tag = "Npp-Mimetype" then .NppMimetype
  else .Unknown tag

/-- The known (non-Unknown) variants of Tags. -/
def Tags.isKnown : Tags → Bool
  | .Unknown _ => false
  | _ => true

/-- The field names of the known Tags variants, in source order of the
field_name match. -/
def knownFieldNames : List String :=
  ["Package", "Version", "Source", "Architecture", "Maintainer",
   "Original-Maintainer", "Installed-Size", "Replaces", "Section",
   "Multi-Arch", "Homepage", "Description", "Breaks", "Depends", "Suggests",
   "Priority", "Built-Using", "Recommends", "Conflicts", "Provides",
   "Enhances", "Build-Ids", "Pre-Depends", "Essential", "Bugs", "Tag",
   "Ubuntu-Oem-Kernel-Flavour", "Original-Vcs-Git", "Ruby-Versions",
   "Lua-Versions", "Python-Version", "Python-Egg-Name", "Ghc-Package",
   "X-Cargo-Built-Using", "Cnf-Visible-Pkgname", "Cnf-Ignore-Commands",
   "Cnf-Extra-Commands", "Go-Import-Path", "Gstreamer-Elements",
   "Gstreamer-Decoders", "Gstreamer-Encoders", "Gstreamer-Version",
   "Gstreamer-Uri-Sources", "Gstreamer-Uri-Sinks", "Python3-Version",
   "Efi-Vendor", "Original-Vcs-Browser", "Modaliases",
   "Postgresql-Catversion", "Xul-Appid", "Task", "Important",
   "Npp-Applications", "Npp-Description", "Npp-File", "Npp-Mimetype"]

/-- The control stanza and file manifest that the debpkg library hands back
when every extraction step of parse_package succeeds: the accessors name()
and version() (guaranteed present once Control::extract succeeds), the tag
name/value pairs behind tags() and get(), and long_description(). -/
structure RawControl where
  name : String
  version : String
  fields : List (String × String)
  longDescription : Option String
deriving DecidableEq, Repr

/-- What the filesystem and the debpkg library yield for one archive path, as
observed by parse_package: either some step of open/parse/control/
Control::extract/data/entries reports an error (failure, with the step and
the library message), or extraction succeeds end to end (good). -/
inductive DebFile
  | failure (stage msg : String)
  | good (control : RawControl) (files : List String)
deriving DecidableEq, Repr

/-- The scfs_ddlog Package record populated by parse_package.  The Rust
field named section is spelled with guillemets because section is a Lean
keyword. -/
structure Package where
  package : String
  version : String
  source : Option String
  architecture : Option String
  maintainer : Option String
  original_maintainer : Option String
  replaces : Option String
  «section» : Option String
  multi_arch : Option String
  homepage : Option String
  description : Option String
  files : List String
  depends : List Dependency
deriving DecidableEq, Repr

/-- Default::default() for Package: empty strings, None and empty vectors. -/
def Package.empty : Package :=
  { package := "", version := "", source := none, architecture := none,
    maintainer := none, original_maintainer := none, replaces := none,
    «section» := none, multi_arch := none, homepage := none,
    description := none, files := [], depends := [] }

/-- Model of Control::get: the value of the first field with the given tag
name. -/
def controlGet (c : RawControl) (key : String) : Option String :=
  (c.fields.find? (fun p => p.1 = key)).map (fun p => p.2)

/-- The match of the tag loop of parse_package (parse.rs lines 244-333),
after the tag string has been converted to Tags: each recognized tag
projects its control value into the corresponding Package field, Depends
runs the dependency parser, everything else is ignored. -/
def applyTagKind (c : RawControl) (p : Package) : Tags → Except Panic Package
  | .Source => .ok { p with source := controlGet c (Tags.fieldName .Source) }
  | .Architecture =>
    .ok { p with architecture := controlGet c (Tags.fieldName .Architecture) }
  | .Maintainer =>
    .ok { p with maintainer := controlGet c (Tags.fieldName .Maintainer) }
  | .OriginalMaintainer =>
    .ok { p with original_maintainer :=
                   controlGet c (Tags.fieldName .OriginalMaintainer) }
  | .Depends =>
    match parseDepends ((controlGet c (Tags.fieldName .Depends)).getD "").toList with
    | .error e => .error e
    | .ok deps => .ok { p with depends := deps }
  | .Replaces => .ok { p with replaces := controlGet c (Tags.fieldName .Replaces) }
  | .Section => .ok { p with «section» := controlGet c (Tags.fieldName .Section) }
  | .MultiArch =>
    .ok { p with multi_arch := controlGet c (Tags.fieldName .MultiArch) }
  | .Homepage => .ok { p with homepage := controlGet c (Tags.fieldName .Homepage) }
  | .Description => .ok { p with description := c.longDescription }
  | _ => .ok p

/-- One iteration of the tag loop: convert the tag name, then dispatch. -/
def applyTag (c : RawControl) (p : Package) (tagName : String) : Except Panic Package :=
  applyTagKind c p (Tags.fromName tagName)

/-- The tag loop of parse_package, left to right over control.tags(). -/
def applyTags (c : RawControl) : Package → List String → Except Panic Package
  | p, [] => .ok p
  | p, t :: rest =>
    match applyTag c p t with
    | .error e => .error e
    | .ok p1 => applyTags c p1 rest

/-- Embedding of parse_package (parse.rs lines 223-337).  Every fallible
library step is unwrapped in the source, so a failing archive is a panic
(the failure arm); on success the identity fields and the file manifest are
set first and the tag loop then fills the remaining fields. -/
def parse_package (f : DebFile) : Except Panic Package :=
  match f with
  | .failure stage msg => .error (.unwrapFailure stage msg)
  | .good control files =>
    applyTags control
      { Package.empty with
          package := control.name, version := control.version, files := files }
      (control.fields.map Prod.fst)

/-- File type of a directory entry.  parse_packages never inspects it; it is
carried so that that fact can be stated. -/
inductive FileType
  | file
  | dir
  | symlink
deriving DecidableEq, Repr

/-- One WalkDir entry: its path, plus the file type the filesystem reports. -/
structure WalkEntry where
  path : String
  fileType : FileType
deriving DecidableEq, Repr

/-- The final component of a slash-separated path, as Path::file_name sees it
for the slash-normalized paths WalkDir produces. -/
def fileNameOf (p : List Char) : List Char :=
  (splitChar '/' p).getLastD []

/-- Model of Path::extension: the part of the final component after its last
dot, when that dot is not the leading character; the special components dot
and dot-dot have no file name and hence no extension. -/
def pathExtension (p : List Char) : Option (List Char) :=
  let n := fileNameOf p
  if n = ['.'] ∨ n = ['.', '.'] then none
  else
    match rfind '.' n with
    | some i => if i = 0 then none else some (n.drop (i + 1))
    | none => none

/-- The candidate test of parse_packages (parse.rs line 347):
extension().map_or(false, ext == deb). -/
def is_deb_file (p : String) : Bool :=
  match pathExtension p.toList with
  | some ext => ext = "deb".toList
  | none => false

/-- The discovery loop of parse_packages (parse.rs lines 342-351): each
WalkDir item is unwrapped (a traversal error is a panic), and paths passing
the extension test are pushed onto the accumulator. -/
def collect_deb_loop (acc : List String) :
    List (Except String WalkEntry) → Except Panic (List String)
  | [] => .ok acc
  | e :: rest =>
    match e with
    | .error msg => .error (.walkdirError msg)
    | .ok ent =>
      collect_deb_loop (if is_deb_file ent.path then acc ++ [ent.path] else acc) rest

/-- The discovered candidate paths, in traversal order. -/
def collect_deb_paths (entries : List (Except String WalkEntry)) :
    Except Panic (List String) :=
  collect_deb_loop [] entries

/-- Embedding of parse_packages (parse.rs lines 339-360).  The WalkDir
traversal is modelled by its result sequence (entries); the archive bytes
the library finds at each discovered path are modelled by fs.  The workers
run parse_package over every discovered path (par_iter preserves order in
collect); a panic in any worker kills the run, so the Rust Result is Ok
exactly when every archive parses. -/
def parse_packages (entries : List (Except String WalkEntry))
    (fs : String → DebFile) : Except Panic (List Package) :=
  match collect_deb_paths entries with
  | .error e => .error e
  | .ok deb_paths =>
    match mapExcept (fun path => parse_package (fs path)) deb_paths with
    | .error e => .error e
    | .ok packages => .ok packages

/-! Lemmas about Tags. -/

theorem Tags.fromName_of_not_known (s : String) (h : s ∉ knownFieldNames) :
    Tags.fromName s = Tags.Unknown s := by
  simp only [knownFieldNames, List.mem_cons, List.not_mem_nil, or_false, not_or] at h
  obtain ⟨h1, h2, h3, h4, h5, h6, h7, h8, h9, h10, h11, h12, h13, h14, h15, h16, h17, h18, h19, h20, h21, h22, h23, h24, h25, h26, h27, h28, h29, h30, h31, h32, h33, h34, h35, h36, h37, h38, h39, h40, h41, h42, h43, h44, h45, h46, h47, h48, h49, h50, h51, h52, h53, h54, h55, h56⟩ := h
  unfold Tags.fromName
  rw [if_neg h1, if_neg h2, if_neg h3, if_neg h4, if_neg h5, if_neg h6, if_neg h7, if_neg h8, if_neg h9, if_neg h10, if_neg h11, if_neg h12, if_neg h13, if_neg h14, if_neg h15, if_neg h16, if_neg h17, if_neg h18, if_neg h19, if_neg h20, if_neg h21, if_neg h22, if_neg h23, if_neg h24, if_neg h25, if_neg h26, if_neg h27, if_neg h28, if_neg h29, if_neg h30, if_neg h31, if_neg h32, if_neg h33, if_neg h34, if_neg h35, if_neg h36, if_neg h37, if_neg h38, if_neg h39, if_neg h40, if_neg h41, if_neg h42, if_neg h43, if_neg h44, if_neg h45, if_neg h46, if_neg h47, if_neg h48, if_neg h49, if_neg h50, if_neg h51, if_neg h52, if_neg h53, if_neg h54, if_neg h55, if_neg h56]

/-! Claim theorems for the control-field mapper. -/

/-- C4: for every known (non-Unknown) ControlTag variant t,
field_name(tag_from_name(field_name(t))) equals field_name(t); and for
every string s not equal to any known field name, tag_from_name(s) is
Unknown(s) and field_name(Unknown(s)) equals s. -/
theorem C4_round_trip :
    (∀ t : Tags, t.isKnown = true →
      Tags.fieldName (Tags.fromName (Tags.fieldName t)) = Tags.fieldName t) ∧
    (∀ s : String, s ∉ knownFieldNames →
      Tags.fromName s = Tags.Unknown s ∧ Tags.fieldName (Tags.Unknown s) = s) := by
  constructor
  · intro t ht
    cases t <;> first | rfl | simp [Tags.isKnown] at ht
  · intro s hs
    exact ⟨Tags.fromName_of_not_known s hs, rfl⟩

theorem C4_witness :
    Tags.fieldName (Tags.fromName (Tags.fieldName Tags.PreDepends)) =
      Tags.fieldName Tags.PreDepends ∧
    (Tags.fromName "Frobnicate" = Tags.Unknown "Frobnicate" ∧
      Tags.fieldName (Tags.Unknown "Frobnicate") = "Frobnicate") :=
  ⟨C4_round_trip.1 Tags.PreDepends rfl, C4_round_trip.2 "Frobnicate" (by decide)⟩

/-! Claim theorems for the dependency-expression parser: grammar errors. -/

/-- C2, counterexample: the claim says an unrecognized comparator token
yields the error value UnknownComparator and the parser never crashes; on
the field text foo (~> 2.29) the parser in fact panics (the panic! arm of
deb_str_to_comparator), so the parse crashes instead of returning. -/
theorem C2_counterexample : panics (parseDepends "foo (~> 2.29)".toList) = true := rfl

/-- C2, amended: a comparator token that is not one of the five literals is
never coerced to a Comparator; instead deb_str_to_comparator panics
carrying the token, and the field parse dies with that panic, as on
foo (~> 2.29) with token ~>. -/
theorem C2_amended :
    (∀ s : List Char, s ≠ "<<".toList → s ≠ "<=".toList → s ≠ "=".toList →
      s ≠ ">=".toList → s ≠ ">>".toList →
      deb_str_to_comparator s = .error (.unknownComparator s)) ∧
    parseDepends "foo (~> 2.29)".toList = .error (.unknownComparator "~>".toList) := by
  constructor
  · intro s h1 h2 h3 h4 h5
    unfold deb_str_to_comparator
    rw [if_neg h1, if_neg h2, if_neg h3, if_neg h4, if_neg h5]
  · rfl

theorem C2_witness :
    deb_str_to_comparator "~>".toList = .error (.unknownComparator "~>".toList) :=
  C2_amended.1 "~>".toList (by decide) (by decide) (by decide) (by decide) (by decide)

/-- C3: the claim says a non-empty parenthesized constraint without a space
separator yields the error value InvalidConstraint; the code instead hits
the unreachable! assertion (parse.rs line 299) on exactly the input the
spec lists, so the parse panics carrying the constraint text. -/
theorem C3_eval :
    parseDepends "foo (>=2.29)".toList =
      .error (.noVersionSeparator ">=2.29".toList) := rfl

/-- C6: parsing the documented example field.  The first OR-alternative of
the second group keeps a stray closing parenthesis in its version string
(5.5 followed by a parenthesis), because trim_end_matches runs before the
trailing space left by the pipe split is trimmed; the claim (and the
comment above the loop in parse.rs) says the version is plain 5.5. -/
theorem C6_eval :
    parseDepends "libc6 (>= 2.29), libqt5gui5 (>= 5.5) | libqt5gui5-gles (>= 5.5)".toList =
      .ok [⟨["libc6".toList], [some (.LaterOrEqual, "2.29".toList)]⟩,
           ⟨["libqt5gui5".toList, "libqt5gui5-gles".toList],
            [some (.LaterOrEqual, "5.5)".toList),
             some (.LaterOrEqual, "5.5".toList)]⟩] := rfl

/-! Lemmas about the dependency parser and mapExcept. -/

theorem parseAlt_length {d d' : Dependency} {a : List Char}
    (h : parseAlt d a = .ok d')
    (hlen : d.package.length = d.version.length) :
    d'.package.length = d'.version.length := by
  simp only [parseAlt] at h
  split at h
  · split at h
    · split at h
      · injection h with h; subst h; simp [hlen]
      · simp at h
    · simp at h
  · injection h with h; subst h; simp [hlen]

theorem parseGroupLoop_length :
    ∀ (l : List (List Char)) (d d' : Dependency),
      parseGroupLoop d l = .ok d' →
      d.package.length = d.version.length →
      d'.package.length = d'.version.length := by
  intro l
  induction l with
  | nil =>
    intro d d' h hlen
    simp only [parseGroupLoop] at h
    injection h with h; subst h; exact hlen
  | cons a rest ih =>
    intro d d' h hlen
    simp only [parseGroupLoop] at h
    split at h
    next e heq => simp at h
    next d1 heq => exact ih d1 d' h (parseAlt_length heq hlen)

theorem mapExcept_ok_mem {α β : Type} {f : α → Except Panic β} :
    ∀ {l : List α} {ys : List β}, mapExcept f l = .ok ys →
      ∀ y ∈ ys, ∃ x ∈ l, f x = .ok y := by
  intro l
  induction l with
  | nil =>
    intro ys h y hy
    simp only [mapExcept] at h
    injection h with h; subst h; simp at hy
  | cons x xs ih =>
    intro ys h y hy
    simp only [mapExcept] at h
    split at h
    next e heq => simp at h
    next y0 heq =>
      split at h
      next e2 heq2 => simp at h
      next ys0 heq2 =>
        injection h with h; subst h
        rcases List.mem_cons.mp hy with rfl | hy2
        · exact ⟨x, List.mem_cons_self x xs, heq⟩
        · obtain ⟨x2, hx2, hfx2⟩ := ih heq2 y hy2
          exact ⟨x2, List.mem_cons_of_mem x hx2, hfx2⟩

/-- C5: every Dependency produced by a successful parse of a relationship
field has parallel lists of equal length: the per-alternative loop pushes
onto the two vectors in lockstep, and a group that panics midway is never
returned at all. -/
theorem C5_length_invariant (line : List Char) (deps : List Dependency)
    (d : Dependency) (h : parseDepends line = .ok deps) (hd : d ∈ deps) :
    d.package.length = d.version.length := by
  simp only [parseDepends] at h
  obtain ⟨g, hg, hpg⟩ := mapExcept_ok_mem h d hd
  simp only [parseGroup] at hpg
  exact parseGroupLoop_length _ _ _ hpg rfl

theorem C5_witness :
    (Dependency.mk ["foo".toList] [none]).package.length =
      (Dependency.mk ["foo".toList] [none]).version.length :=
  C5_length_invariant "foo".toList [⟨["foo".toList], [none]⟩]
    ⟨["foo".toList], [none]⟩ rfl (by simp)

theorem mapExcept_ok_of_forall {α β : Type} {f : α → Except Panic β} :
    ∀ {l : List α}, (∀ x ∈ l, ∃ y, f x = .ok y) →
      ∃ ys, mapExcept f l = .ok ys ∧ ys.length = l.length := by
  intro l
  induction l with
  | nil => intro h; exact ⟨[], rfl, rfl⟩
  | cons x xs ih =>
    intro h
    obtain ⟨y, hy⟩ := h x (List.mem_cons_self x xs)
    obtain ⟨ys, hys, hlen⟩ := ih (fun z hz => h z (List.mem_cons_of_mem x hz))
    refine ⟨y :: ys, ?_, by simp [hlen]⟩
    simp only [mapExcept, hy, hys]

theorem mapExcept_error_of_mem {α β : Type} {f : α → Except Panic β} :
    ∀ {l : List α} {x : α} {e : Panic}, x ∈ l → f x = .error e →
      ∃ e2, mapExcept f l = .error e2 := by
  intro l
  induction l with
  | nil => intro x e hx hfx; simp at hx
  | cons z zs ih =>
    intro x e hx hfx
    rcases List.mem_cons.mp hx with rfl | hx2
    · exact ⟨e, by simp only [mapExcept, hfx]⟩
    · cases hz : f z with
      | error e0 => exact ⟨e0, by simp only [mapExcept, hz]⟩
      | ok y =>
        obtain ⟨e2, he2⟩ := ih hx2 hfx
        exact ⟨e2, by simp only [mapExcept, hz, he2]⟩

/-! Lemmas about the directory scanner. -/

theorem collect_deb_loop_error :
    ∀ (pre : List WalkEntry) (acc : List String) (msg : String)
      (post : List (Except String WalkEntry)),
      collect_deb_loop acc (pre.map .ok ++ .error msg :: post) =
        .error (.walkdirError msg) := by
  intro pre
  induction pre with
  | nil => intro acc msg post; rfl
  | cons ent rest ih =>
    intro acc msg post
    simp only [List.map_cons, List.cons_append, collect_deb_loop]
    exact ih _ msg post

/-! Claim theorems for the scanner and the pipeline. -/

/-- C7, counterexample: the claim says a traversal error on one entry is
diagnosed and skipped with traversal continuing; in fact the entry unwrap
panics, so a scan whose first item is a permission error dies without ever
seeing the valid archive entry behind it. -/
theorem C7_counterexample :
    collect_deb_paths [.error "permission denied", .ok ⟨"a.deb", .file⟩] =
      .error (.walkdirError "permission denied") := rfl

/-- C7, amended: on the first traversal error the scanner panics via unwrap
and the whole scan terminates with that panic; no diagnostic-and-skip
happens and no later entry is reached, whatever came before or after. -/
theorem C7_amended (pre : List WalkEntry) (msg : String)
    (post : List (Except String WalkEntry)) :
    collect_deb_paths (pre.map .ok ++ .error msg :: post) =
      .error (.walkdirError msg) :=
  collect_deb_loop_error pre [] msg post

/-- C9: the candidate test of the scanner looks only at the extension of the
path, never at the file type of the entry: any entry whose path extension
is deb, directories included, is collected and then handed to
parse_package by the pipeline. -/
theorem C9_extension_only (path : String) (ft : FileType) (fs : String → DebFile)
    (h : is_deb_file path = true) :
    parse_packages [.ok ⟨path, ft⟩] fs =
      Except.map (fun p => [p]) (parse_package (fs path)) := by
  simp only [parse_packages, collect_deb_paths, collect_deb_loop, h, if_true]
  cases hp : parse_package (fs path) with
  | error e => simp [mapExcept, hp, Except.map]
  | ok p => simp [mapExcept, hp, Except.map]

theorem C9_witness :
    parse_packages [.ok ⟨"foo.deb", FileType.dir⟩]
        (fun _ => .failure "std::fs::File::open" "Is a directory") =
      Except.map (fun p => [p])
        (parse_package (.failure "std::fs::File::open" "Is a directory")) :=
  C9_extension_only "foo.deb" FileType.dir
    (fun _ => .failure "std::fs::File::open" "Is a directory") (by decide)

/-- C1, counterexample: the claim says a failing archive is recorded as a
failure and the run returns a pair of successes and failures, with one
corrupted archive among one discovered path reporting zero successes and
one failure; in fact the worker panic propagates and the whole pipeline
dies with the panic instead of returning. -/
theorem C1_counterexample :
    panics (parse_packages [.ok ⟨"a.deb", .file⟩]
      (fun _ => .failure "debpkg::DebPkg::parse" "corrupt archive")) = true := rfl

/-- C1, amended: the pipeline returns no failure records.  When every
discovered archive parses, it returns Ok with exactly one Package per
discovered path (so the count of results equals the count of discovered
paths); when any discovered archive fails, the per-item panic kills the
whole run and nothing is returned. -/
theorem C1_amended :
    (∀ (entries : List (Except String WalkEntry)) (fs : String → DebFile)
       (paths : List String),
       collect_deb_paths entries = .ok paths →
       (∀ p ∈ paths, ∃ pkg, parse_package (fs p) = .ok pkg) →
       ∃ pkgs, parse_packages entries fs = .ok pkgs ∧ pkgs.length = paths.length) ∧
    (∀ (entries : List (Except String WalkEntry)) (fs : String → DebFile)
       (paths : List String) (p : String) (e : Panic),
       collect_deb_paths entries = .ok paths → p ∈ paths →
       parse_package (fs p) = .error e →
       panics (parse_packages entries fs) = true) := by
  constructor
  · intro entries fs paths hc hall
    obtain ⟨pkgs, hm, hlen⟩ := mapExcept_ok_of_forall hall
    exact ⟨pkgs, by simp only [parse_packages, hc, hm], hlen⟩
  · intro entries fs paths p e hc hp hfp
    obtain ⟨e2, he2⟩ := @mapExcept_error_of_mem String Package
      (fun path => parse_package (fs path)) paths p e hp hfp
    simp only [parse_packages, hc, he2, panics]

theorem C1_witness :
    (∃ pkgs, parse_packages [.ok ⟨"a.deb", FileType.file⟩]
        (fun _ => .good ⟨"n", "v", [], none⟩ []) = .ok pkgs ∧
      pkgs.length = (["a.deb"] : List String).length) ∧
    panics (parse_packages [.ok ⟨"a.deb", FileType.file⟩]
        (fun _ => .failure "open" "denied")) = true :=
  ⟨C1_amended.1 _ _ ["a.deb"] rfl (fun _ _ => ⟨_, rfl⟩),
   C1_amended.2 _ _ ["a.deb"] "a.deb" (.unwrapFailure "open" "denied") rfl
     (by simp) rfl⟩

/-! Claim theorems for the archive extractor. -/

/-- C8, counterexample: the claim says a control stanza lacking a mandatory
field makes extraction return the error value MissingRequiredField; in
fact parse_package unwraps the library result, so the archive makes the
worker panic and nothing is returned at all. -/
theorem C8_counterexample :
    panics (parse_package
      (.failure "debpkg::Control::extract" "missing field: Version")) = true := rfl

/-- C8, amended: parse_package never returns MalformedArchive or
MissingRequiredField error values; whatever extraction step the library
reports as failing (container open or parse, control or data member,
decompression, missing mandatory field), the unwrap panics with that
failure and the run dies.  All-or-nothing holds in the surviving sense: a
Package is produced only when extraction succeeded end to end. -/
theorem C8_amended :
    (∀ stage msg, parse_package (.failure stage msg) =
      .error (.unwrapFailure stage msg)) ∧
    (∀ (f : DebFile) (p : Package), parse_package f = .ok p →
      ∃ c files, f = .good c files) := by
  constructor
  · intro stage msg; rfl
  · intro f p h
    cases f with
    | failure stage msg => simp [parse_package] at h
    | good c files => exact ⟨c, files, rfl⟩

theorem C8_witness :
    parse_package (.failure "std::fs::File::open" "No such file") =
      .error (.unwrapFailure "std::fs::File::open" "No such file") ∧
    ∃ c files, (DebFile.good ⟨"pkg", "1.0", [], none⟩ [] : DebFile) = .good c files :=
  ⟨C8_amended.1 "std::fs::File::open" "No such file",
   C8_amended.2 (.good ⟨"pkg", "1.0", [], none⟩ [])
     { Package.empty with package := "pkg", version := "1.0" } rfl⟩

/-! Lemmas for the empty-Depends claim. -/

theorem splitChar_of_not_mem {sep : Char} :
    ∀ {s : List Char}, (∀ ch ∈ s, ch ≠ sep) → splitChar sep s = [s] := by
  intro s
  induction s with
  | nil => intro h; rfl
  | cons ch rest ih =>
    intro h
    simp only [splitChar]
    rw [if_neg (h ch (List.mem_cons_self ch rest))]
    rw [ih (fun x hx => h x (List.mem_cons_of_mem ch hx))]

theorem rfind_of_not_mem {t : Char} :
    ∀ {s : List Char}, (∀ ch ∈ s, ch ≠ t) → rfind t s = none := by
  intro s
  induction s with
  | nil => intro h; rfl
  | cons ch rest ih =>
    intro h
    simp only [rfind]
    rw [ih (fun x hx => h x (List.mem_cons_of_mem ch hx))]
    simp [h ch (List.mem_cons_self ch rest)]

theorem trim_all_ws {s : List Char} (h : ∀ ch ∈ s, ch.isWhitespace = true) :
    trim s = [] := by
  have h1 : trimStart s = [] := by
    simp only [trimStart, isWs]
    exact List.dropWhile_eq_nil_iff.mpr h
  simp [trim, h1, trimEnd]

theorem parseDepends_whitespace (s : List Char)
    (h : ∀ ch ∈ s, ch.isWhitespace = true) :
    parseDepends s = .ok [⟨[[]], [none]⟩] := by
  have hcomma : splitChar ',' s = [s] :=
    splitChar_of_not_mem (fun ch hch he => by
      subst he; exact absurd (h _ hch) (by decide))
  have hpipe : splitChar '|' s = [s] :=
    splitChar_of_not_mem (fun ch hch he => by
      subst he; exact absurd (h _ hch) (by decide))
  have hpar : rfind '(' s = none :=
    rfind_of_not_mem (fun ch hch he => by
      subst he; exact absurd (h _ hch) (by decide))
  simp only [parseDepends, hcomma, mapExcept, parseGroup, hpipe, parseGroupLoop,
    parseAlt, hpar, trim_all_ws h, List.nil_append]

/-- Every non-Depends tag leaves the depends field of the record alone. -/
theorem applyTagKind_not_depends (c : RawControl) (p : Package) :
    ∀ (k : Tags), k ≠ Tags.Depends →
      ∃ p2, applyTagKind c p k = .ok p2 ∧ p2.depends = p.depends := by
  intro k hk
  cases k <;> first | (exact absurd rfl hk) | exact ⟨_, rfl, rfl⟩

/-- Behaviour of the tag loop with respect to the depends field, given that
the Depends value parses: the loop always succeeds, the depends field ends
up as the parsed value whenever some tag converts to Depends, and it is
otherwise untouched. -/
theorem applyTags_depends_result (c : RawControl) (deps : List Dependency)
    (hv : parseDepends (((controlGet c "Depends").getD "").toList) = .ok deps) :
    ∀ (l : List String) (p : Package),
      ∃ q, applyTags c p l = .ok q ∧
        ((∃ t ∈ l, Tags.fromName t = Tags.Depends) → q.depends = deps) ∧
        (q.depends = p.depends ∨ q.depends = deps) := by
  intro l
  induction l with
  | nil =>
    intro p
    exact ⟨p, rfl, by simp, Or.inl rfl⟩
  | cons t rest ih =>
    intro p
    by_cases hd : Tags.fromName t = Tags.Depends
    · have happ : applyTag c p t = .ok { p with depends := deps } := by
        simp only [applyTag, hd, applyTagKind, Tags.fieldName, hv]
      obtain ⟨q, hq, hex, hor⟩ := ih { p with depends := deps }
      refine ⟨q, ?_, fun _ => ?_, ?_⟩
      · simp only [applyTags, happ]; exact hq
      · rcases hor with h1 | h1
        · simpa using h1
        · exact h1
      · rcases hor with h1 | h1
        · right; simpa using h1
        · right; exact h1
    · obtain ⟨p2, hp2, hdep2⟩ := applyTagKind_not_depends c p _ hd
      have happ : applyTag c p t = .ok p2 := hp2
      obtain ⟨q, hq, hex, hor⟩ := ih p2
      refine ⟨q, ?_, ?_, ?_⟩
      · simp only [applyTags, happ]; exact hq
      · intro hext
        rcases hext with ⟨t2, ht2mem, ht2⟩
        rcases List.mem_cons.mp ht2mem with rfl | hmem
        · exact absurd ht2 hd
        · exact hex ⟨t2, hmem, ht2⟩
      · rcases hor with h1 | h1
        · left; rw [h1, hdep2]
        · right; exact h1

/-- C10: a control stanza whose Depends value is empty or whitespace-only
yields a depends list with exactly one Dependency group holding a single
empty-string alternative and no constraint: the comma split of the empty
text yields one empty piece, which is trimmed and pushed unconstrained. -/
theorem C10_empty_depends (c : RawControl) (files : List String) (ws : String)
    (hget : controlGet c "Depends" = some ws)
    (hws : ∀ ch ∈ ws.toList, ch.isWhitespace = true) :
    ∃ p, parse_package (.good c files) = .ok p ∧
      p.depends = [⟨[[]], [none]⟩] := by
  have hv : parseDepends (((controlGet c "Depends").getD "").toList) =
      .ok [⟨[[]], [none]⟩] := by
    rw [hget]
    exact parseDepends_whitespace ws.toList hws
  obtain ⟨q, hq, hex, hor⟩ := applyTags_depends_result c [⟨[[]], [none]⟩] hv
    (c.fields.map Prod.fst)
    { Package.empty with
        package := c.name, version := c.version, files := files }
  refine ⟨q, ?_, ?_⟩
  · simp only [parse_package]; exact hq
  · apply hex
    obtain ⟨pr, hfind, hsnd⟩ := Option.map_eq_some'.mp hget
    have hmem : pr ∈ c.fields := List.mem_of_find?_eq_some hfind
    have hfst : pr.1 = "Depends" := by
      have := List.find?_some hfind
      exact of_decide_eq_true this
    refine ⟨"Depends", ?_, rfl⟩
    rw [← hfst]
    exact List.mem_map_of_mem Prod.fst hmem

theorem C10_witness :
    ∃ p, parse_package (.good ⟨"n", "v", [("Depends", " ")], none⟩ []) = .ok p ∧
      p.depends = [⟨[[]], [none]⟩] :=
  C10_empty_depends ⟨"n", "v", [("Depends", " ")], none⟩ [] " " rfl (by decide)

end Factgen
